import Mathlib

/-!
Verification of `choose_dark` from `evora_utils.py` (MROPipeline).

The Python function selects, scales, or linearly interpolates a dark
calibration frame from a library of darks indexed by exposure time.
We embed it shallowly: pixel arrays become lists of lists of rationals,
the filesystem becomes a function from paths to optional frames, runtime
errors become an explicit error type, and `print` / `fits.getdata`
become an explicit stdout line list and file-operation trace.
-/

/-- A 2-d pixel array (`numpy` image data), row major, rational-valued. -/
abbrev Frame := List (List ℚ)

/-- Elementwise multiplication of every pixel of a frame by a scalar,
as numpy broadcasting does for `array * c` (and `array * a / b`, since
over ℚ multiplying by `a` then dividing by `b` is multiplying by `a/b`). -/
def frameSmul (f : Frame) (c : ℚ) : Frame :=
  f.map (fun row => row.map (fun p => p * c))

/-- Elementwise sum of two frames of equal shape (numpy `+`). -/
def frameAdd (f g : Frame) : Frame :=
  List.zipWith (fun r s => List.zipWith (fun p q => p + q) r s) f g

/-- Pixel access: row `i`, column `j`, if present. -/
def pixel (f : Frame) (i j : ℕ) : Option ℚ :=
  f[i]?.bind (fun row => row[j]?)

/-- Python `int()` on a rational: truncation toward zero.  On the reduced
fraction `num/den` this is integer T-division of `num` by `den`. -/
def intTrunc (q : ℚ) : ℤ :=
  q.num.tdiv (q.den : ℤ)

/-- Python `os.path.join(a, b)` for POSIX paths: `b` if `b` is absolute,
`b` if `a` is empty, otherwise `a` and `b` joined with exactly one `/`. -/
def ospJoin (a b : String) : String :=
  if b.data.head? = some '/' then b
  else if a = "" then b
  else if a.data.getLast? = some '/' then a ++ b
  else a ++ "/" ++ b

/-- The dark-library naming schema of `choose_dark` (line 37 etc. of the
source): `os.path.join(dark_dir, 'dark_{}s_{}.fits'.format(n, suffix))`. -/
def darkName (dark_dir : String) (suffix : String) (n : ℤ) : String :=
  ospJoin dark_dir ("dark_" ++ toString n ++ "s_" ++ suffix ++ ".fits")

/-- numpy `.min()` of a 1-d array, as a fold; `none` models the
`ValueError` numpy raises on an empty array. -/
def npMin : List ℚ → Option ℚ
  | [] => none
  | x :: xs => some (xs.foldl min x)

/-- numpy `.max()` of a 1-d array, as a fold; `none` models the
`ValueError` numpy raises on an empty array. -/
def npMax : List ℚ → Option ℚ
  | [] => none
  | x :: xs => some (xs.foldl max x)

/-- The interpolation weight `weight_lower = (exptime - lower_bound)/diff`
computed at source lines 51-52 (`diff = upper_bound - lower_bound`). -/
def weight_lower (exptime lower_bound upper_bound : ℚ) : ℚ :=
  (exptime - lower_bound) / (upper_bound - lower_bound)

/-- The interpolation weight `weight_upper = (upper_bound - exptime)/diff`
computed at source lines 51-53. -/
def weight_upper (exptime lower_bound upper_bound : ℚ) : ℚ :=
  (upper_bound - exptime) / (upper_bound - lower_bound)

/-- A file operation performed by the function.  The source only ever
reads (`fits.getdata`), but the trace type can express writes, so that
"no file is written" is a statement and not a tautology of the type. -/
inductive FileEffect
  | read (path : String)
  | write (path : String)
deriving DecidableEq

/-- Whether a file operation is a read. -/
def FileEffect.isRead : FileEffect → Bool
  | .read _ => true
  | .write _ => false

/-- Runtime errors `choose_dark` can raise: numpy's `ValueError` from
`min`/`max` of an empty array, Python's `UnboundLocalError` at
`return dark` when no branch assigned `dark`, and the file-reading
error from `fits.getdata` on a missing file. -/
inductive DarkError
  | emptyMinMax
  | unboundLocal
  | missingFile (path : String)
deriving DecidableEq

/-- Everything observable about one call of `choose_dark`: its return
value or error, the lines printed to stdout, the file operations
performed, and the caller's `explist` as observable after the call
(the source's line 35 `explist = np.array(explist)` only rebinds the
local name to a fresh copy; no statement mutates the argument, so every
branch leaves the caller's list as it was). -/
structure DarkOutcome where
  result : Except DarkError Frame
  stdout : List String
  fileOps : List FileEffect
  explistAfter : List ℚ

/-- Shallow embedding of `choose_dark` (src/evora_utils.py, lines 7-67).
`fs` is the filesystem: the frame stored at each path, if any.

Source structure mirrored branch for branch:
- line 36: `if int(exptime) in explist` — exact match, lines 37-40;
- line 42: `if exptime < explist.min()` — scale shortest dark, lines 45-46
  (note: no verbose print in this branch);
- line 47: `elif (exptime > explist.min()) & (exptime < explist.max())` —
  weighted average of the two nearest darks, lines 49-60;
- line 61: `elif exptime > explist.max()` — scale longest dark, lines 63-66;
- if no branch runs, `dark` is unbound at line 67's `return dark`. -/
def choose_dark (fs : String → Option Frame) (exptime : ℚ) (dark_dir : String)
    (suffix : String) (explist : List ℚ) (verbose : Bool) : DarkOutcome :=
  if (intTrunc exptime : ℚ) ∈ explist then
    let darkfile := darkName dark_dir suffix (intTrunc exptime)
    let msgs := if verbose then ["Using " ++ darkfile] else []
    match fs darkfile with
    | some dark => ⟨.ok dark, msgs, [.read darkfile], explist⟩
    | none => ⟨.error (.missingFile darkfile), msgs, [.read darkfile], explist⟩
  else
    match npMin explist with
    | none => ⟨.error .emptyMinMax, [], [], explist⟩
    | some mn =>
      if exptime < mn then
        let darkfile := darkName dark_dir suffix (intTrunc mn)
        match fs darkfile with
        | some dark => ⟨.ok (frameSmul dark (exptime / mn)), [], [.read darkfile], explist⟩
        | none => ⟨.error (.missingFile darkfile), [], [.read darkfile], explist⟩
      else
        match npMax explist with
        | none => ⟨.error .emptyMinMax, [], [], explist⟩
        | some mx =>
          if mn < exptime ∧ exptime < mx then
            match npMax (explist.filter (fun e => decide (e < exptime))) with
            | none => ⟨.error .emptyMinMax, [], [], explist⟩
            | some lower_bound =>
              match npMin (explist.filter (fun e => decide (exptime < e))) with
              | none => ⟨.error .emptyMinMax, [], [], explist⟩
              | some upper_bound =>
                let darkfile1 := darkName dark_dir suffix (intTrunc lower_bound)
                let darkfile2 := darkName dark_dir suffix (intTrunc upper_bound)
                let msgs := if verbose then
                  ["Averaging " ++ darkfile1 ++ " & " ++ darkfile2] else []
                match fs darkfile1 with
                | none => ⟨.error (.missingFile darkfile1), msgs, [.read darkfile1], explist⟩
                | some dark1 =>
                  match fs darkfile2 with
                  | none => ⟨.error (.missingFile darkfile2), msgs,
                      [.read darkfile1, .read darkfile2], explist⟩
                  | some dark2 =>
                    ⟨.ok (frameAdd
                        (frameSmul dark1 (weight_lower exptime lower_bound upper_bound))
                        (frameSmul dark2 (weight_upper exptime lower_bound upper_bound))),
                      msgs, [.read darkfile1, .read darkfile2], explist⟩
          else if mx < exptime then
            let darkfile := darkName dark_dir suffix (intTrunc mx)
            let msgs := if verbose then ["Using " ++ darkfile] else []
            match fs darkfile with
            | some dark => ⟨.ok (frameSmul dark (exptime / mx)), msgs, [.read darkfile], explist⟩
            | none => ⟨.error (.missingFile darkfile), msgs, [.read darkfile], explist⟩
          else ⟨.error .unboundLocal, [], [], explist⟩

/-! ### Characterizations of `npMin` / `npMax` -/

theorem foldlMin_mem (xs : List ℚ) (x : ℚ) : xs.foldl min x ∈ x :: xs := by
  induction xs generalizing x with
  | nil => simp [List.foldl]
  | cons a xs ih =>
    rw [List.foldl_cons]
    rcases List.mem_cons.mp (ih (min x a)) with h | h
    · rw [h]
      rcases min_choice x a with h' | h' <;> rw [h'] <;> simp
    · simp [h]

theorem foldlMin_le (xs : List ℚ) (x : ℚ) : ∀ y ∈ x :: xs, xs.foldl min x ≤ y := by
  induction xs generalizing x with
  | nil =>
    intro y hy
    rw [List.mem_singleton] at hy
    simp [List.foldl, hy]
  | cons a xs ih =>
    intro y hy
    rw [List.foldl_cons]
    have hbase : xs.foldl min (min x a) ≤ min x a :=
      ih (min x a) (min x a) (List.mem_cons_self _ _)
    rcases List.mem_cons.mp hy with rfl | hy'
    · exact hbase.trans (min_le_left _ _)
    · rcases List.mem_cons.mp hy' with rfl | hy''
      · exact hbase.trans (min_le_right _ _)
      · exact ih (min x a) y (List.mem_cons_of_mem _ hy'')

theorem foldlMax_mem (xs : List ℚ) (x : ℚ) : xs.foldl max x ∈ x :: xs := by
  induction xs generalizing x with
  | nil => simp [List.foldl]
  | cons a xs ih =>
    rw [List.foldl_cons]
    rcases List.mem_cons.mp (ih (max x a)) with h | h
    · rw [h]
      rcases max_choice x a with h' | h' <;> rw [h'] <;> simp
    · simp [h]

theorem foldlMax_ge (xs : List ℚ) (x : ℚ) : ∀ y ∈ x :: xs, y ≤ xs.foldl max x := by
  induction xs generalizing x with
  | nil =>
    intro y hy
    rw [List.mem_singleton] at hy
    simp [List.foldl, hy]
  | cons a xs ih =>
    intro y hy
    rw [List.foldl_cons]
    have hbase : max x a ≤ xs.foldl max (max x a) :=
      ih (max x a) (max x a) (List.mem_cons_self _ _)
    rcases List.mem_cons.mp hy with rfl | hy'
    · exact (le_max_left _ _).trans hbase
    · rcases List.mem_cons.mp hy' with rfl | hy''
      · exact (le_max_right _ _).trans hbase
      · exact ih (max x a) y (List.mem_cons_of_mem _ hy'')

theorem npMin_eq_some_iff (l : List ℚ) (m : ℚ) :
    npMin l = some m ↔ m ∈ l ∧ ∀ x ∈ l, m ≤ x := by
  constructor
  · intro h
    cases l with
    | nil => simp [npMin] at h
    | cons a xs =>
      rw [npMin, Option.some.injEq] at h
      subst h
      exact ⟨foldlMin_mem xs a, foldlMin_le xs a⟩
  · rintro ⟨hm, hb⟩
    cases l with
    | nil => simp at hm
    | cons a xs =>
      rw [npMin, Option.some.injEq]
      exact le_antisymm (foldlMin_le xs a m hm) (hb _ (foldlMin_mem xs a))

theorem npMax_eq_some_iff (l : List ℚ) (m : ℚ) :
    npMax l = some m ↔ m ∈ l ∧ ∀ x ∈ l, x ≤ m := by
  constructor
  · intro h
    cases l with
    | nil => simp [npMax] at h
    | cons a xs =>
      rw [npMax, Option.some.injEq] at h
      subst h
      exact ⟨foldlMax_mem xs a, foldlMax_ge xs a⟩
  · rintro ⟨hm, hb⟩
    cases l with
    | nil => simp at hm
    | cons a xs =>
      rw [npMax, Option.some.injEq]
      exact le_antisymm (hb _ (foldlMax_mem xs a)) (foldlMax_ge xs a m hm)

theorem npMin_eq_none_iff (l : List ℚ) : npMin l = none ↔ l = [] := by
  cases l <;> simp [npMin]

theorem npMax_eq_none_iff (l : List ℚ) : npMax l = none ↔ l = [] := by
  cases l <;> simp [npMax]

theorem npMin_isSome (l : List ℚ) (hl : l ≠ []) : ∃ m, npMin l = some m := by
  cases h : npMin l with
  | none => exact absurd ((npMin_eq_none_iff l).mp h) hl
  | some m => exact ⟨m, rfl⟩

theorem npMax_isSome (l : List ℚ) (hl : l ≠ []) : ∃ m, npMax l = some m := by
  cases h : npMax l with
  | none => exact absurd ((npMax_eq_none_iff l).mp h) hl
  | some m => exact ⟨m, rfl⟩

/-- Python `int()` of an integer-valued rational is that integer. -/
theorem intTrunc_intCast (k : ℤ) : intTrunc (k : ℚ) = k := by
  simp [intTrunc, Rat.num_intCast, Rat.den_intCast]

/-! ### Branch-evaluation lemmas for `choose_dark` -/

/-- When `int(exptime)` is a member of `explist`, `choose_dark` runs the
exact-match branch (source lines 36-40). -/
theorem choose_dark_branch_exact (fs : String → Option Frame) (exptime : ℚ)
    (dark_dir suffix : String) (explist : List ℚ) (verbose : Bool)
    (hmem : (intTrunc exptime : ℚ) ∈ explist) :
    choose_dark fs exptime dark_dir suffix explist verbose =
      let darkfile := darkName dark_dir suffix (intTrunc exptime)
      let msgs := if verbose then ["Using " ++ darkfile] else []
      match fs darkfile with
      | some dark => ⟨.ok dark, msgs, [.read darkfile], explist⟩
      | none => ⟨.error (.missingFile darkfile), msgs, [.read darkfile], explist⟩ := by
  unfold choose_dark
  rw [if_pos hmem]

/-- When `int(exptime)` is not a member and `exptime` is below the
minimum reference exposure, `choose_dark` runs the scale-shortest-dark
branch (source lines 42-46), which prints nothing. -/
theorem choose_dark_branch_below (fs : String → Option Frame) (exptime : ℚ)
    (dark_dir suffix : String) (explist : List ℚ) (verbose : Bool) (mn : ℚ)
    (hnm : (intTrunc exptime : ℚ) ∉ explist)
    (hmn : npMin explist = some mn) (hlt : exptime < mn) :
    choose_dark fs exptime dark_dir suffix explist verbose =
      let darkfile := darkName dark_dir suffix (intTrunc mn)
      match fs darkfile with
      | some dark => ⟨.ok (frameSmul dark (exptime / mn)), [], [.read darkfile], explist⟩
      | none => ⟨.error (.missingFile darkfile), [], [.read darkfile], explist⟩ := by
  unfold choose_dark
  simp only [if_neg hnm, hmn, if_pos hlt]

/-- When `int(exptime)` is not a member and `exptime` lies strictly
between the minimum and maximum reference exposures, `choose_dark` runs
the interpolation branch (source lines 47-60). -/
theorem choose_dark_branch_interp (fs : String → Option Frame) (exptime : ℚ)
    (dark_dir suffix : String) (explist : List ℚ) (verbose : Bool)
    (mn mx lower_bound upper_bound : ℚ)
    (hnm : (intTrunc exptime : ℚ) ∉ explist)
    (hmn : npMin explist = some mn) (hmx : npMax explist = some mx)
    (hbetween : mn < exptime ∧ exptime < mx)
    (hlow : npMax (explist.filter (fun e => decide (e < exptime))) = some lower_bound)
    (hup : npMin (explist.filter (fun e => decide (exptime < e))) = some upper_bound) :
    choose_dark fs exptime dark_dir suffix explist verbose =
      let darkfile1 := darkName dark_dir suffix (intTrunc lower_bound)
      let darkfile2 := darkName dark_dir suffix (intTrunc upper_bound)
      let msgs := if verbose then ["Averaging " ++ darkfile1 ++ " & " ++ darkfile2] else []
      match fs darkfile1 with
      | none => ⟨.error (.missingFile darkfile1), msgs, [.read darkfile1], explist⟩
      | some dark1 =>
        match fs darkfile2 with
        | none => ⟨.error (.missingFile darkfile2), msgs,
            [.read darkfile1, .read darkfile2], explist⟩
        | some dark2 =>
          ⟨.ok (frameAdd
              (frameSmul dark1 (weight_lower exptime lower_bound upper_bound))
              (frameSmul dark2 (weight_upper exptime lower_bound upper_bound))),
            msgs, [.read darkfile1, .read darkfile2], explist⟩ := by
  have hnlt : ¬ exptime < mn := not_lt.mpr (le_of_lt hbetween.1)
  unfold choose_dark
  simp only [if_neg hnm, hmn, if_neg hnlt, hmx, if_pos hbetween, hlow, hup]

/-- When `int(exptime)` is not a member and `exptime` is above the
maximum reference exposure, `choose_dark` runs the scale-longest-dark
branch (source lines 61-66). -/
theorem choose_dark_branch_above (fs : String → Option Frame) (exptime : ℚ)
    (dark_dir suffix : String) (explist : List ℚ) (verbose : Bool) (mn mx : ℚ)
    (hnm : (intTrunc exptime : ℚ) ∉ explist)
    (hmn : npMin explist = some mn) (hmx : npMax explist = some mx)
    (hgt : mx < exptime) :
    choose_dark fs exptime dark_dir suffix explist verbose =
      let darkfile := darkName dark_dir suffix (intTrunc mx)
      let msgs := if verbose then ["Using " ++ darkfile] else []
      match fs darkfile with
      | some dark => ⟨.ok (frameSmul dark (exptime / mx)), msgs, [.read darkfile], explist⟩
      | none => ⟨.error (.missingFile darkfile), msgs, [.read darkfile], explist⟩ := by
  have hmnmx : mn ≤ mx := by
    have h1 := (npMin_eq_some_iff explist mn).mp hmn
    have h2 := (npMax_eq_some_iff explist mx).mp hmx
    exact h2.2 mn h1.1
  have hnlt : ¬ exptime < mn := not_lt.mpr (hmnmx.trans hgt.le)
  have hnb : ¬ (mn < exptime ∧ exptime < mx) := by
    rintro ⟨-, h⟩
    exact absurd hgt (not_lt.mpr h.le)
  unfold choose_dark
  simp only [if_neg hnm, hmn, if_neg hnlt, hmx, if_neg hnb, if_pos hgt]

/-- When `int(exptime)` is not a member and `exptime` equals the minimum
or the maximum reference exposure, no branch of the source assigns
`dark`, and line 67's `return dark` raises `UnboundLocalError`. -/
theorem choose_dark_branch_gap (fs : String → Option Frame) (exptime : ℚ)
    (dark_dir suffix : String) (explist : List ℚ) (verbose : Bool) (mn mx : ℚ)
    (hnm : (intTrunc exptime : ℚ) ∉ explist)
    (hmn : npMin explist = some mn) (hmx : npMax explist = some mx)
    (heq : exptime = mn ∨ exptime = mx) :
    choose_dark fs exptime dark_dir suffix explist verbose =
      ⟨.error .unboundLocal, [], [], explist⟩ := by
  have hmnmx : mn ≤ mx := by
    have h1 := (npMin_eq_some_iff explist mn).mp hmn
    have h2 := (npMax_eq_some_iff explist mx).mp hmx
    exact h2.2 mn h1.1
  have hnlt : ¬ exptime < mn := by
    rcases heq with rfl | rfl
    · exact lt_irrefl _
    · exact not_lt.mpr hmnmx
  have hnb : ¬ (mn < exptime ∧ exptime < mx) := by
    rintro ⟨h1, h2⟩
    rcases heq with rfl | rfl
    · exact lt_irrefl _ h1
    · exact lt_irrefl _ h2
  have hngt : ¬ mx < exptime := by
    rcases heq with rfl | rfl
    · exact not_lt.mpr hmnmx
    · exact lt_irrefl _
  unfold choose_dark
  simp only [if_neg hnm, hmn, if_neg hnlt, hmx, if_neg hnb, if_neg hngt]

/-- A value that is in the list, below `exptime`, and above every list
element below `exptime`, is what `explist[explist < exptime].max()`
computes (source line 49). -/
theorem npMax_filter_lt (explist : List ℚ) (exptime lower_bound : ℚ)
    (h1 : lower_bound ∈ explist) (h2 : lower_bound < exptime)
    (h3 : ∀ e ∈ explist, e < exptime → e ≤ lower_bound) :
    npMax (explist.filter (fun e => decide (e < exptime))) = some lower_bound := by
  refine (npMax_eq_some_iff _ _).mpr ⟨List.mem_filter.mpr ⟨h1, by simpa using h2⟩, ?_⟩
  intro x hx
  rcases List.mem_filter.mp hx with ⟨hx1, hx2⟩
  exact h3 x hx1 (by simpa using hx2)

/-- A value that is in the list, above `exptime`, and below every list
element above `exptime`, is what `explist[explist > exptime].min()`
computes (source line 50). -/
theorem npMin_filter_gt (explist : List ℚ) (exptime upper_bound : ℚ)
    (h1 : upper_bound ∈ explist) (h2 : exptime < upper_bound)
    (h3 : ∀ e ∈ explist, exptime < e → upper_bound ≤ e) :
    npMin (explist.filter (fun e => decide (exptime < e))) = some upper_bound := by
  refine (npMin_eq_some_iff _ _).mpr ⟨List.mem_filter.mpr ⟨h1, by simpa using h2⟩, ?_⟩
  intro x hx
  rcases List.mem_filter.mp hx with ⟨hx1, hx2⟩
  exact h3 x hx1 (by simpa using hx2)

/-- Scaling a frame scales each pixel. -/
theorem pixel_frameSmul (f : Frame) (c : ℚ) (i j : ℕ) :
    pixel (frameSmul f c) i j = (pixel f i j).map (fun p => p * c) := by
  unfold pixel frameSmul
  rw [List.getElem?_map]
  cases f[i]? with
  | none => rfl
  | some row => simp [List.getElem?_map]

/-! ### Claim C1: interpolation between two bracketing references -/

/-- C1: for a `target_exposure` strictly between the minimum and maximum
reference exposures whose integer truncation is not a reference,
`choose_dark` picks `lower_bound`, the largest reference strictly below
the target, and `upper_bound`, the smallest reference strictly above it,
and returns the pixelwise sum of the lower frame times
`(target - lower_bound)/(upper_bound - lower_bound)` and the upper frame
times `(upper_bound - target)/(upper_bound - lower_bound)`. -/
theorem choose_dark_interpolates (fs : String → Option Frame) (exptime : ℚ)
    (dark_dir suffix : String) (explist : List ℚ) (verbose : Bool)
    (lower_bound upper_bound : ℚ) (dark1 dark2 : Frame)
    (hnm : (intTrunc exptime : ℚ) ∉ explist)
    (hlb : lower_bound ∈ explist ∧ lower_bound < exptime ∧
      ∀ e ∈ explist, e < exptime → e ≤ lower_bound)
    (hub : upper_bound ∈ explist ∧ exptime < upper_bound ∧
      ∀ e ∈ explist, exptime < e → upper_bound ≤ e)
    (hd1 : fs (darkName dark_dir suffix (intTrunc lower_bound)) = some dark1)
    (hd2 : fs (darkName dark_dir suffix (intTrunc upper_bound)) = some dark2) :
    (choose_dark fs exptime dark_dir suffix explist verbose).result =
      .ok (frameAdd
        (frameSmul dark1 ((exptime - lower_bound) / (upper_bound - lower_bound)))
        (frameSmul dark2 ((upper_bound - exptime) / (upper_bound - lower_bound)))) := by
  obtain ⟨mn, hmn⟩ := npMin_isSome explist (List.ne_nil_of_mem hlb.1)
  obtain ⟨mx, hmx⟩ := npMax_isSome explist (List.ne_nil_of_mem hlb.1)
  have hmn' := (npMin_eq_some_iff explist mn).mp hmn
  have hmx' := (npMax_eq_some_iff explist mx).mp hmx
  have hbetween : mn < exptime ∧ exptime < mx :=
    ⟨lt_of_le_of_lt (hmn'.2 _ hlb.1) hlb.2.1, lt_of_lt_of_le hub.2.1 (hmx'.2 _ hub.1)⟩
  have hlow := npMax_filter_lt explist exptime lower_bound hlb.1 hlb.2.1 hlb.2.2
  have hup := npMin_filter_gt explist exptime upper_bound hub.1 hub.2.1 hub.2.2
  have hbr := choose_dark_branch_interp fs exptime dark_dir suffix explist verbose
    mn mx lower_bound upper_bound hnm hmn hmx hbetween hlow hup
  rw [hbr]
  simp only [hd1, hd2, weight_lower, weight_upper]

/-- Witness for C1, matching the worked example of the claim: target 12
between references 10 and 20 yields `0.2*dark(10) + 0.8*dark(20)`. -/
def fsC1 : String → Option Frame := fun p =>
  if p = "darks/dark_10s_medcombine_sub.fits" then some [[10, 100]]
  else if p = "darks/dark_20s_medcombine_sub.fits" then some [[20, 200]]
  else none

theorem choose_dark_interpolates_witness :
    (choose_dark fsC1 12 "darks" "medcombine_sub" [10, 20] false).result =
      .ok (frameAdd (frameSmul [[10, 100]] (((12:ℚ) - 10) / (20 - 10)))
        (frameSmul [[20, 200]] (((20:ℚ) - 12) / (20 - 10)))) ∧
    frameAdd (frameSmul [[10, 100]] (((12:ℚ) - 10) / (20 - 10)))
        (frameSmul [[20, 200]] (((20:ℚ) - 12) / (20 - 10))) =
      [[(1/5 : ℚ) * 10 + (4/5) * 20, (1/5) * 100 + (4/5) * 200]] :=
  ⟨choose_dark_interpolates fsC1 12 "darks" "medcombine_sub" [10, 20] false
      10 20 [[10, 100]] [[20, 200]] (by decide)
      ⟨by decide, by decide, by decide⟩ ⟨by decide, by decide, by decide⟩
      (by decide) (by decide),
    by norm_num [frameAdd, frameSmul]⟩

/-! ### Claim C2: exact match returns the stored frame unmodified -/

/-- C2: when the truncation-toward-zero of `target_exposure` is one of
the reference exposures, `choose_dark` reads exactly the file
`<dark_dir>/dark_<int(exptime)>s_<suffix>.fits` and returns the frame
stored there unmodified — no scaling, no interpolation. -/
theorem choose_dark_exact_match (fs : String → Option Frame) (exptime : ℚ)
    (dark_dir suffix : String) (explist : List ℚ) (verbose : Bool) (dark : Frame)
    (hmem : (intTrunc exptime : ℚ) ∈ explist)
    (hfs : fs (darkName dark_dir suffix (intTrunc exptime)) = some dark) :
    (choose_dark fs exptime dark_dir suffix explist verbose).result = .ok dark ∧
    (choose_dark fs exptime dark_dir suffix explist verbose).fileOps =
      [.read (darkName dark_dir suffix (intTrunc exptime))] := by
  have hbr := choose_dark_branch_exact fs exptime dark_dir suffix explist verbose hmem
  rw [hbr]
  simp [hfs]

/-- Witness for C2 at `target_exposure = 121/4 = 30.25`, whose truncation
30 is in the default reference list; the file read is
`darks/dark_30s_medcombine_sub.fits` and its frame comes back as is. -/
def fsC2 : String → Option Frame := fun p =>
  if p = "darks/dark_30s_medcombine_sub.fits" then some [[7, 8], [9, 11]]
  else none

theorem choose_dark_exact_match_witness :
    (choose_dark fsC2 (mkRat 121 4) "darks" "medcombine_sub"
        [5, 10, 20, 30, 60, 120, 300] false).result = .ok [[7, 8], [9, 11]] ∧
    (choose_dark fsC2 (mkRat 121 4) "darks" "medcombine_sub"
        [5, 10, 20, 30, 60, 120, 300] false).fileOps =
      [.read "darks/dark_30s_medcombine_sub.fits"] :=
  choose_dark_exact_match fsC2 (mkRat 121 4) "darks" "medcombine_sub"
    [5, 10, 20, 30, 60, 120, 300] false [[7, 8], [9, 11]] (by decide) (by decide)

/-! ### Claim C3: below the minimum, scale the shortest dark -/

/-- C3: when `target_exposure` is strictly below the minimum reference
exposure (and its truncation is not a reference), `choose_dark` returns
the dark stored at the minimum reference exposure with every pixel
multiplied by `target_exposure / minimum_reference_exposure`. -/
theorem choose_dark_below_min (fs : String → Option Frame) (exptime : ℚ)
    (dark_dir suffix : String) (explist : List ℚ) (verbose : Bool)
    (mn : ℚ) (dark : Frame)
    (hnm : (intTrunc exptime : ℚ) ∉ explist)
    (hmin : mn ∈ explist ∧ ∀ x ∈ explist, mn ≤ x)
    (hlt : exptime < mn)
    (hfs : fs (darkName dark_dir suffix (intTrunc mn)) = some dark) :
    (choose_dark fs exptime dark_dir suffix explist verbose).result =
      .ok (frameSmul dark (exptime / mn)) ∧
    ∀ i j, pixel (frameSmul dark (exptime / mn)) i j =
      (pixel dark i j).map (fun p => p * (exptime / mn)) := by
  have hmn : npMin explist = some mn := (npMin_eq_some_iff explist mn).mpr hmin
  have hbr := choose_dark_branch_below fs exptime dark_dir suffix explist verbose
    mn hnm hmn hlt
  constructor
  · rw [hbr]
    simp only [hfs]
  · intro i j
    exact pixel_frameSmul dark (exptime / mn) i j

/-- Witness for C3, matching the worked example of the claim: target 2
with minimum reference 5 yields `dark(5) * (2/5)` pixelwise. -/
def fsC3 : String → Option Frame := fun p =>
  if p = "darks/dark_5s_medcombine_sub.fits" then some [[5, 50], [500, 5000]]
  else none

theorem choose_dark_below_min_witness :
    (choose_dark fsC3 2 "darks" "medcombine_sub" [5, 10, 20, 30, 60, 120, 300]
        false).result = .ok (frameSmul [[5, 50], [500, 5000]] ((2:ℚ) / 5)) ∧
    frameSmul [[5, 50], [500, 5000]] ((2:ℚ) / 5) = [[2, 20], [200, 2000]] :=
  ⟨(choose_dark_below_min fsC3 2 "darks" "medcombine_sub"
      [5, 10, 20, 30, 60, 120, 300] false 5 [[5, 50], [500, 5000]]
      (by decide) ⟨by decide, by decide⟩ (by decide) (by decide)).1,
    by norm_num [frameSmul]⟩

/-! ### Claim C4: above the maximum, scale the longest dark -/

/-- C4: when `target_exposure` is strictly above the maximum reference
exposure (and its truncation is not a reference), `choose_dark` returns
the dark stored at the maximum reference exposure with every pixel
multiplied by `target_exposure / maximum_reference_exposure`. -/
theorem choose_dark_above_max (fs : String → Option Frame) (exptime : ℚ)
    (dark_dir suffix : String) (explist : List ℚ) (verbose : Bool)
    (mx : ℚ) (dark : Frame)
    (hnm : (intTrunc exptime : ℚ) ∉ explist)
    (hmax : mx ∈ explist ∧ ∀ x ∈ explist, x ≤ mx)
    (hgt : mx < exptime)
    (hfs : fs (darkName dark_dir suffix (intTrunc mx)) = some dark) :
    (choose_dark fs exptime dark_dir suffix explist verbose).result =
      .ok (frameSmul dark (exptime / mx)) ∧
    ∀ i j, pixel (frameSmul dark (exptime / mx)) i j =
      (pixel dark i j).map (fun p => p * (exptime / mx)) := by
  obtain ⟨mn, hmn⟩ := npMin_isSome explist (List.ne_nil_of_mem hmax.1)
  have hmx : npMax explist = some mx := (npMax_eq_some_iff explist mx).mpr hmax
  have hbr := choose_dark_branch_above fs exptime dark_dir suffix explist verbose
    mn mx hnm hmn hmx hgt
  constructor
  · rw [hbr]
    simp only [hfs]
  · intro i j
    exact pixel_frameSmul dark (exptime / mx) i j

/-- Witness for C4, matching the worked example of the claim: target 600
with maximum reference 300 yields `dark(300) * 2` pixelwise. -/
def fsC4 : String → Option Frame := fun p =>
  if p = "darks/dark_300s_medcombine_sub.fits" then some [[3, 4], [6, 21]]
  else none

theorem choose_dark_above_max_witness :
    (choose_dark fsC4 600 "darks" "medcombine_sub" [5, 10, 20, 30, 60, 120, 300]
        false).result = .ok (frameSmul [[3, 4], [6, 21]] ((600:ℚ) / 300)) ∧
    frameSmul [[3, 4], [6, 21]] ((600:ℚ) / 300) = [[6, 8], [12, 42]] :=
  ⟨(choose_dark_above_max fsC4 600 "darks" "medcombine_sub"
      [5, 10, 20, 30, 60, 120, 300] false 300 [[3, 4], [6, 21]]
      (by decide) ⟨by decide, by decide⟩ (by decide) (by decide)).1,
    by norm_num [frameSmul]⟩

/-! ### Claim C5: verbose output (corrected — the below-minimum branch
prints nothing; only the other three branches emit a line) -/

/-- C5 counterexample: with `verbose = true`, a below-minimum call
(target 2, references 5 and 10) prints no line at all — source lines
42-46 contain no `print` — contradicting the claim that all four cases
emit one line. -/
theorem choose_dark_verbose_counterexample :
    (choose_dark (fun _ => some [[1]]) 2 "darks" "medcombine_sub"
      [5, 10] true).stdout = [] := by decide

/-- C5 (amended): with `verbose = true`, `choose_dark` prints one line
naming the file(s) chosen in the exact-match, interpolation and
above-maximum cases, and prints nothing in the below-minimum case. -/
theorem choose_dark_verbose_lines :
    (∀ (fs : String → Option Frame) (exptime : ℚ) (dark_dir suffix : String)
      (explist : List ℚ), (intTrunc exptime : ℚ) ∈ explist →
      (choose_dark fs exptime dark_dir suffix explist true).stdout =
        ["Using " ++ darkName dark_dir suffix (intTrunc exptime)]) ∧
    (∀ (fs : String → Option Frame) (exptime : ℚ) (dark_dir suffix : String)
      (explist : List ℚ) (mn : ℚ), (intTrunc exptime : ℚ) ∉ explist →
      npMin explist = some mn → exptime < mn →
      (choose_dark fs exptime dark_dir suffix explist true).stdout = []) ∧
    (∀ (fs : String → Option Frame) (exptime : ℚ) (dark_dir suffix : String)
      (explist : List ℚ) (lower_bound upper_bound : ℚ),
      (intTrunc exptime : ℚ) ∉ explist →
      (lower_bound ∈ explist ∧ lower_bound < exptime ∧
        ∀ e ∈ explist, e < exptime → e ≤ lower_bound) →
      (upper_bound ∈ explist ∧ exptime < upper_bound ∧
        ∀ e ∈ explist, exptime < e → upper_bound ≤ e) →
      (choose_dark fs exptime dark_dir suffix explist true).stdout =
        ["Averaging " ++ darkName dark_dir suffix (intTrunc lower_bound) ++
          " & " ++ darkName dark_dir suffix (intTrunc upper_bound)]) ∧
    (∀ (fs : String → Option Frame) (exptime : ℚ) (dark_dir suffix : String)
      (explist : List ℚ) (mx : ℚ), (intTrunc exptime : ℚ) ∉ explist →
      (mx ∈ explist ∧ ∀ x ∈ explist, x ≤ mx) → mx < exptime →
      (choose_dark fs exptime dark_dir suffix explist true).stdout =
        ["Using " ++ darkName dark_dir suffix (intTrunc mx)]) := by
  refine ⟨?_, ?_, ?_, ?_⟩
  · intro fs exptime dark_dir suffix explist hmem
    rw [choose_dark_branch_exact fs exptime dark_dir suffix explist true hmem]
    cases hf : fs (darkName dark_dir suffix (intTrunc exptime)) <;> simp [hf]
  · intro fs exptime dark_dir suffix explist mn hnm hmn hlt
    rw [choose_dark_branch_below fs exptime dark_dir suffix explist true mn hnm hmn hlt]
    cases hf : fs (darkName dark_dir suffix (intTrunc mn)) <;> simp [hf]
  · intro fs exptime dark_dir suffix explist lower_bound upper_bound hnm hlb hub
    obtain ⟨mn, hmn⟩ := npMin_isSome explist (List.ne_nil_of_mem hlb.1)
    obtain ⟨mx, hmx⟩ := npMax_isSome explist (List.ne_nil_of_mem hlb.1)
    have hmn' := (npMin_eq_some_iff explist mn).mp hmn
    have hmx' := (npMax_eq_some_iff explist mx).mp hmx
    have hbetween : mn < exptime ∧ exptime < mx :=
      ⟨lt_of_le_of_lt (hmn'.2 _ hlb.1) hlb.2.1, lt_of_lt_of_le hub.2.1 (hmx'.2 _ hub.1)⟩
    have hlow := npMax_filter_lt explist exptime lower_bound hlb.1 hlb.2.1 hlb.2.2
    have hup := npMin_filter_gt explist exptime upper_bound hub.1 hub.2.1 hub.2.2
    rw [choose_dark_branch_interp fs exptime dark_dir suffix explist true
      mn mx lower_bound upper_bound hnm hmn hmx hbetween hlow hup]
    cases hf1 : fs (darkName dark_dir suffix (intTrunc lower_bound)) <;>
      cases hf2 : fs (darkName dark_dir suffix (intTrunc upper_bound)) <;>
        simp [hf1, hf2]
  · intro fs exptime dark_dir suffix explist mx hnm hmax hgt
    obtain ⟨mn, hmn⟩ := npMin_isSome explist (List.ne_nil_of_mem hmax.1)
    have hmx : npMax explist = some mx := (npMax_eq_some_iff explist mx).mpr hmax
    rw [choose_dark_branch_above fs exptime dark_dir suffix explist true mn mx hnm hmn hmx hgt]
    cases hf : fs (darkName dark_dir suffix (intTrunc mx)) <;> simp [hf]

/-- Witness for (amended) C5: one concrete call per case, against a
filesystem holding a frame at every path. -/
theorem choose_dark_verbose_lines_witness :
    (choose_dark (fun _ => some [[1]]) 30 "darks" "medcombine_sub" [5, 30] true).stdout =
      ["Using " ++ darkName "darks" "medcombine_sub" (intTrunc 30)] ∧
    (choose_dark (fun _ => some [[1]]) 2 "darks" "medcombine_sub" [5, 30] true).stdout = [] ∧
    (choose_dark (fun _ => some [[1]]) 12 "darks" "medcombine_sub" [5, 30] true).stdout =
      ["Averaging " ++ darkName "darks" "medcombine_sub" (intTrunc 5) ++
        " & " ++ darkName "darks" "medcombine_sub" (intTrunc 30)] ∧
    (choose_dark (fun _ => some [[1]]) 600 "darks" "medcombine_sub" [5, 30] true).stdout =
      ["Using " ++ darkName "darks" "medcombine_sub" (intTrunc 30)] :=
  ⟨choose_dark_verbose_lines.1 _ 30 "darks" "medcombine_sub" [5, 30] (by decide),
    choose_dark_verbose_lines.2.1 _ 2 "darks" "medcombine_sub" [5, 30] 5
      (by decide) (by decide) (by decide),
    choose_dark_verbose_lines.2.2.1 _ 12 "darks" "medcombine_sub" [5, 30] 5 30
      (by decide) ⟨by decide, by decide, by decide⟩ ⟨by decide, by decide, by decide⟩,
    choose_dark_verbose_lines.2.2.2 _ 600 "darks" "medcombine_sub" [5, 30] 30
      (by decide) ⟨by decide, by decide⟩ (by decide)⟩

/-! ### Claim C6: weights sum to 1; midpoint is the simple average -/

/-- Pixelwise addition of frames commutes, so at equal weights the
pairing of weight and frame cannot matter. -/
theorem frameAdd_comm (f g : Frame) : frameAdd f g = frameAdd g f := by
  unfold frameAdd
  exact List.zipWith_comm_of_comm _
    (fun r s => List.zipWith_comm_of_comm _ (fun p q => add_comm p q) r s) f g

/-- C6: the two interpolation weights of `choose_dark` always sum to 1
for a target strictly between its brackets; and at the exact midpoint —
target 15 bracketed by references 10 and 20 — both weights are 1/2 and
the result is the simple average of the two frames, whichever frame is
paired with whichever weight. -/
theorem choose_dark_weights :
    (∀ exptime lower_bound upper_bound : ℚ,
      lower_bound < exptime → exptime < upper_bound →
      weight_lower exptime lower_bound upper_bound +
        weight_upper exptime lower_bound upper_bound = 1) ∧
    (∀ (fs : String → Option Frame) (dark_dir suffix : String) (verbose : Bool)
      (dark1 dark2 : Frame),
      fs (darkName dark_dir suffix 10) = some dark1 →
      fs (darkName dark_dir suffix 20) = some dark2 →
      (choose_dark fs 15 dark_dir suffix [10, 20] verbose).result =
        .ok (frameAdd (frameSmul dark1 (1/2)) (frameSmul dark2 (1/2))) ∧
      frameAdd (frameSmul dark1 (1/2)) (frameSmul dark2 (1/2)) =
        frameAdd (frameSmul dark2 (1/2)) (frameSmul dark1 (1/2))) := by
  constructor
  · intro exptime lower_bound upper_bound h1 h2
    have hne : upper_bound - lower_bound ≠ 0 :=
      sub_ne_zero.mpr (ne_of_gt (h1.trans h2))
    unfold weight_lower weight_upper
    rw [div_add_div_same,
      show exptime - lower_bound + (upper_bound - exptime) =
        upper_bound - lower_bound by ring]
    exact div_self hne
  · intro fs dark_dir suffix verbose dark1 dark2 hd1 hd2
    have h10 : intTrunc (10:ℚ) = 10 := by decide
    have h20 : intTrunc (20:ℚ) = 20 := by decide
    have hbr := choose_dark_branch_interp fs 15 dark_dir suffix [10, 20] verbose
      10 20 10 20 (by decide) (by decide) (by decide) ⟨by decide, by decide⟩
      (by decide) (by decide)
    rw [h10, h20] at hbr
    constructor
    · rw [hbr]
      simp only [hd1, hd2]
      norm_num [weight_lower, weight_upper]
    · exact frameAdd_comm _ _

/-- Witness for C6: the weight identity at target 15 between 10 and 20,
and the midpoint call on concrete frames, whose average is `[[5]]`. -/
def fsC6 : String → Option Frame := fun p =>
  if p = "darks/dark_10s_medcombine_sub.fits" then some [[4]]
  else if p = "darks/dark_20s_medcombine_sub.fits" then some [[6]]
  else none

theorem choose_dark_weights_witness :
    weight_lower 15 10 20 + weight_upper 15 10 20 = 1 ∧
    (choose_dark fsC6 15 "darks" "medcombine_sub" [10, 20] false).result =
      .ok (frameAdd (frameSmul [[4]] (1/2)) (frameSmul [[6]] (1/2))) ∧
    frameAdd (frameSmul [[(4:ℚ)]] (1/2)) (frameSmul [[(6:ℚ)]] (1/2)) = [[5]] :=
  ⟨choose_dark_weights.1 15 10 20 (by decide) (by decide),
    (choose_dark_weights.2 fsC6 "darks" "medcombine_sub" false [[4]] [[6]]
      (by decide) (by decide)).1,
    by norm_num [frameAdd, frameSmul]⟩

/-! ### Claim C7: a target equal to the minimum or maximum integer
reference takes the exact-match path, with no scaling -/

/-- C7: with integer-valued reference exposures, a `target_exposure`
exactly equal to the minimum or the maximum reference takes the
exact-match branch: the stored frame comes back unmodified and the only
file operation is the single read of that frame — no scaling and no
interpolation happen. -/
theorem choose_dark_boundary_exact (fs : String → Option Frame) (exptime : ℚ)
    (dark_dir suffix : String) (explist : List ℚ) (verbose : Bool) (dark : Frame)
    (hints : ∀ e ∈ explist, ((intTrunc e : ℤ) : ℚ) = e)
    (hbound : (exptime ∈ explist ∧ ∀ x ∈ explist, exptime ≤ x) ∨
      (exptime ∈ explist ∧ ∀ x ∈ explist, x ≤ exptime))
    (hfs : fs (darkName dark_dir suffix (intTrunc exptime)) = some dark) :
    (choose_dark fs exptime dark_dir suffix explist verbose).result = .ok dark ∧
    (choose_dark fs exptime dark_dir suffix explist verbose).fileOps =
      [.read (darkName dark_dir suffix (intTrunc exptime))] := by
  have hexp : exptime ∈ explist := by
    rcases hbound with h | h <;> exact h.1
  have hmem : (intTrunc exptime : ℚ) ∈ explist := by
    rw [hints exptime hexp]
    exact hexp
  rw [choose_dark_branch_exact fs exptime dark_dir suffix explist verbose hmem]
  simp [hfs]

/-- Witness for C7: target 5 equals the minimum of the default library
and returns the stored frame at 5 s untouched. -/
def fsC7 : String → Option Frame := fun p =>
  if p = "darks/dark_5s_medcombine_sub.fits" then some [[13, 17]]
  else none

theorem choose_dark_boundary_exact_witness :
    (choose_dark fsC7 5 "darks" "medcombine_sub" [5, 10, 20, 30, 60, 120, 300]
        false).result = .ok [[13, 17]] ∧
    (choose_dark fsC7 5 "darks" "medcombine_sub" [5, 10, 20, 30, 60, 120, 300]
        false).fileOps = [.read "darks/dark_5s_medcombine_sub.fits"] :=
  choose_dark_boundary_exact fsC7 5 "darks" "medcombine_sub"
    [5, 10, 20, 30, 60, 120, 300] false [[13, 17]]
    (by decide) (Or.inl ⟨by decide, by decide⟩) (by decide)

/-! ### Claim C8: an empty reference library always fails -/

/-- C8: whatever the target exposure, calling `choose_dark` with an
empty reference list fails with numpy's empty-min error before reading
any file: no dark frame is ever produced from an empty library. -/
theorem choose_dark_empty_refs (fs : String → Option Frame) (exptime : ℚ)
    (dark_dir suffix : String) (verbose : Bool) :
    (choose_dark fs exptime dark_dir suffix [] verbose).result =
      .error .emptyMinMax ∧
    (choose_dark fs exptime dark_dir suffix [] verbose).fileOps = [] :=
  ⟨rfl, rfl⟩

/-! ### Claim C9: unbound `dark` at a non-integer minimum or maximum -/

/-- If the truncation of `exptime` is a reference whenever `exptime`
equals the minimum or the maximum reference, then some branch of
`choose_dark` runs: the result is never the unbound-local error. -/
theorem choose_dark_no_gap (fs : String → Option Frame) (exptime : ℚ)
    (dark_dir suffix : String) (explist : List ℚ) (verbose : Bool)
    (h : ∀ mn mx, npMin explist = some mn → npMax explist = some mx →
      exptime = mn ∨ exptime = mx → (intTrunc exptime : ℚ) ∈ explist) :
    (choose_dark fs exptime dark_dir suffix explist verbose).result ≠
      .error .unboundLocal := by
  by_cases hmem : (intTrunc exptime : ℚ) ∈ explist
  · rw [choose_dark_branch_exact fs exptime dark_dir suffix explist verbose hmem]
    cases hf : fs (darkName dark_dir suffix (intTrunc exptime)) <;> simp [hf]
  · cases hl : npMin explist with
    | none =>
      have hnil : explist = [] := (npMin_eq_none_iff explist).mp hl
      subst hnil
      intro hcontra
      exact absurd hcontra (by simp [choose_dark, npMin])
    | some mn =>
      obtain ⟨mx, hmx⟩ := npMax_isSome explist (by
        intro hnil
        rw [hnil] at hl
        simp [npMin] at hl)
      have hmn' := (npMin_eq_some_iff explist mn).mp hl
      have hmx' := (npMax_eq_some_iff explist mx).mp hmx
      by_cases h1 : exptime < mn
      · rw [choose_dark_branch_below fs exptime dark_dir suffix explist verbose
          mn hmem hl h1]
        cases hf : fs (darkName dark_dir suffix (intTrunc mn)) <;> simp [hf]
      · by_cases h2 : mn < exptime ∧ exptime < mx
        · obtain ⟨lb, hlb⟩ :=
            npMax_isSome (explist.filter (fun e => decide (e < exptime))) (by
              intro hemp
              have hmnf : mn ∈ explist.filter (fun e => decide (e < exptime)) :=
                List.mem_filter.mpr ⟨hmn'.1, by simpa using h2.1⟩
              rw [hemp] at hmnf
              simp at hmnf)
          obtain ⟨ub, hub⟩ :=
            npMin_isSome (explist.filter (fun e => decide (exptime < e))) (by
              intro hemp
              have hmxf : mx ∈ explist.filter (fun e => decide (exptime < e)) :=
                List.mem_filter.mpr ⟨hmx'.1, by simpa using h2.2⟩
              rw [hemp] at hmxf
              simp at hmxf)
          rw [choose_dark_branch_interp fs exptime dark_dir suffix explist verbose
            mn mx lb ub hmem hl hmx h2 hlb hub]
          cases hf1 : fs (darkName dark_dir suffix (intTrunc lb)) <;>
            cases hf2 : fs (darkName dark_dir suffix (intTrunc ub)) <;>
              simp [hf1, hf2]
        · by_cases h3 : mx < exptime
          · rw [choose_dark_branch_above fs exptime dark_dir suffix explist verbose
              mn mx hmem hl hmx h3]
            cases hf : fs (darkName dark_dir suffix (intTrunc mx)) <;> simp [hf]
          · exfalso
            have heq : exptime = mn ∨ exptime = mx := by
              rcases eq_or_lt_of_le (not_lt.mp h1) with he | hlt
              · exact Or.inl he.symm
              · rcases eq_or_lt_of_le (not_lt.mp h3) with he | hgt
                · exact Or.inr he
                · exact absurd ⟨hlt, hgt⟩ h2
            exact hmem (h mn mx hl hmx heq)

/-- C9 counterexample: the trailing clause of the claim — that the four
branches are exhaustive only when every reference exposure is an
integer — is false: `[5, 21/2, 20]` contains the non-integer 21/2 yet no
target exposure reaches the unbound-local state, because only a
non-integer minimum or maximum opens the gap and 21/2 is interior. -/
theorem choose_dark_gap_counterexample :
    (mkRat 21 2 ∈ ([5, mkRat 21 2, 20] : List ℚ) ∧
      ∀ k : ℤ, mkRat 21 2 ≠ (k : ℚ)) ∧
    ∀ exptime : ℚ,
      (choose_dark (fun _ => some [[1]]) exptime "darks" "medcombine_sub"
        [5, mkRat 21 2, 20] false).result ≠ .error .unboundLocal := by
  refine ⟨⟨by decide, ?_⟩, ?_⟩
  · intro k hk
    have hd := congrArg Rat.den hk
    rw [Rat.den_intCast] at hd
    exact absurd hd (by decide)
  · intro exptime
    apply choose_dark_no_gap
    intro mn mx hmn hmx heq
    have h5 : (5 : ℚ) = mn :=
      Option.some.inj ((by decide :
        npMin [5, mkRat 21 2, 20] = some (5 : ℚ)).symm.trans hmn)
    have h20 : (20 : ℚ) = mx :=
      Option.some.inj ((by decide :
        npMax [5, mkRat 21 2, 20] = some (20 : ℚ)).symm.trans hmx)
    rcases heq with rfl | rfl
    · rw [← h5]
      decide
    · rw [← h20]
      decide

/-- C9 (amended): if `target_exposure` equals the minimum (or maximum)
reference exposure while its truncation toward zero is not a reference —
which forces that bound to be non-integer — no branch of `choose_dark`
assigns `dark` and the call fails with `UnboundLocalError` at the
return; and whenever every reference exposure is an integer, the four
branches are exhaustive (no unbound-local failure for any target). -/
theorem choose_dark_nonint_boundary :
    (∀ (fs : String → Option Frame) (exptime : ℚ) (dark_dir suffix : String)
      (explist : List ℚ) (verbose : Bool),
      (intTrunc exptime : ℚ) ∉ explist →
      ((exptime ∈ explist ∧ ∀ x ∈ explist, exptime ≤ x) ∨
        (exptime ∈ explist ∧ ∀ x ∈ explist, x ≤ exptime)) →
      (choose_dark fs exptime dark_dir suffix explist verbose).result =
        .error .unboundLocal) ∧
    (∀ (zs : List ℤ) (fs : String → Option Frame) (exptime : ℚ)
      (dark_dir suffix : String) (verbose : Bool),
      (choose_dark fs exptime dark_dir suffix
        (zs.map (Int.cast : ℤ → ℚ)) verbose).result ≠ .error .unboundLocal) := by
  constructor
  · intro fs exptime dark_dir suffix explist verbose hnm hbound
    rcases hbound with hb | hb
    · obtain ⟨mx, hmx⟩ := npMax_isSome explist (List.ne_nil_of_mem hb.1)
      rw [choose_dark_branch_gap fs exptime dark_dir suffix explist verbose
        exptime mx hnm ((npMin_eq_some_iff explist exptime).mpr hb) hmx
        (Or.inl rfl)]
    · obtain ⟨mn, hmn⟩ := npMin_isSome explist (List.ne_nil_of_mem hb.1)
      rw [choose_dark_branch_gap fs exptime dark_dir suffix explist verbose
        mn exptime hnm hmn ((npMax_eq_some_iff explist exptime).mpr hb)
        (Or.inr rfl)]
  · intro zs fs exptime dark_dir suffix verbose
    apply choose_dark_no_gap
    intro mn mx hmn hmx heq
    rcases heq with rfl | rfl
    · obtain ⟨k, hkz, hk⟩ :=
        List.mem_map.mp ((npMin_eq_some_iff _ _).mp hmn).1
      rw [← hk, intTrunc_intCast]
      exact List.mem_map.mpr ⟨k, hkz, rfl⟩
    · obtain ⟨k, hkz, hk⟩ :=
        List.mem_map.mp ((npMax_eq_some_iff _ _).mp hmx).1
      rw [← hk, intTrunc_intCast]
      exact List.mem_map.mpr ⟨k, hkz, rfl⟩

/-- Witness for (amended) C9: target 11/2 = 5.5 equals the non-integer
minimum of `[11/2, 20]`, its truncation 5 is not a reference, and the
call fails with the unbound-local error. -/
theorem choose_dark_nonint_boundary_witness :
    (choose_dark (fun _ => some [[1]]) (mkRat 11 2) "darks" "medcombine_sub"
      [mkRat 11 2, 20] false).result = .error .unboundLocal :=
  choose_dark_nonint_boundary.1 (fun _ => some [[1]]) (mkRat 11 2) "darks"
    "medcombine_sub" [mkRat 11 2, 20] false (by decide)
    (Or.inl ⟨by decide, by decide⟩)

/-! ### Claim C10: no mutation of inputs, no file written -/

/-- C10: on every call, the caller's reference list is unchanged after
the call — line 35's `explist = np.array(explist)` only rebinds a local
to a fresh copy — and every file operation in the trace is a read:
`choose_dark` never writes a file. -/
theorem choose_dark_no_mutation (fs : String → Option Frame) (exptime : ℚ)
    (dark_dir suffix : String) (explist : List ℚ) (verbose : Bool) :
    (choose_dark fs exptime dark_dir suffix explist verbose).explistAfter =
      explist ∧
    (choose_dark fs exptime dark_dir suffix explist verbose).fileOps.all
      FileEffect.isRead = true := by
  refine ⟨?_, ?_⟩ <;>
    · unfold choose_dark
      repeat' (first | rfl | split | simp only [List.all_cons, List.all_nil,
        FileEffect.isRead, Bool.and_true, Bool.true_and])
